import Mathlib

/-!
# Verification of the Criteria Filter/Sort Engine

Shallow embedding of `filter_products_by_criteria`
(`src/Task-10/functions.py`, lines 67-154), the deterministic product
filter/sort/limit pipeline, together with proofs of its specified
properties.

Modelling conventions:
* Product records are Python dicts with possibly-missing keys; every field
  is `Option`-valued, `none` standing for an absent key.  The helpers
  `nameD`, `categoryD`, `priceD`, `ratingD`, `inStockD` mirror the
  `p.get(key, default)` reads in the source.
* Python numbers (ints and floats used only in comparisons, never in
  arithmetic) are modelled as `Rat`.  Python strings are sequences of code
  points, so string operations are modelled on `List Char`: `str.lower()`
  as mapping `Char.toLower` over the characters (the inputs at issue are
  ASCII), the substring test `a in b` as `List.isInfix`, and string
  comparison as the lexicographic order on `List Char` (code-point order,
  as in Python).
* `list.sort(key=k)` is Python's stable sort, modelled as
  `List.mergeSort` with the non-strict comparison on `k`;
  `list.sort(key=k, reverse=True)` is the stable descending sort, i.e. the
  unique permutation that is non-increasing on `k` and keeps records with
  equal keys in their original relative order, which is `List.mergeSort`
  with the flipped non-strict comparison.
-/

namespace ProductSearch

/-- One product record.  Fields model the dict keys read by the source
(`name`, `category`, `price`, `rating`, `in_stock`); `none` means the key
is absent from the dict. -/
structure Product where
  name : Option String
  category : Option String
  price : Option Rat
  rating : Option Rat
  in_stock : Option Bool
deriving DecidableEq

/-- Models `p.get('name', '')` (line 130 of the source). -/
def Product.nameD (p : Product) : String := p.name.getD ""

/-- Models `p.get('category', '')` (line 79). -/
def Product.categoryD (p : Product) : String := p.category.getD ""

/-- Models `p.get('price', 0)` (lines 106, 110, 138, 140). -/
def Product.priceD (p : Product) : Rat := p.price.getD 0

/-- Models `p.get('rating', 0)` (lines 115, 119, 142, 144). -/
def Product.ratingD (p : Product) : Rat := p.rating.getD 0

/-- Models `p.get('in_stock', False)` (line 124). -/
def Product.inStockD (p : Product) : Bool := p.in_stock.getD false

/-- Models Python `s.lower()` as a code-point sequence: map `Char.toLower`
over the characters (faithful for the ASCII data this tool handles). -/
def pyLower (s : String) : List Char := s.toList.map Char.toLower

/-- Result of `json.loads` on a `price_range` string (line 93), as far as
the source observes it: either a JSON object, of which only the `min` and
`max` members are read (`none` = absent or JSON `null`; numeric values per
the function schema), or any non-object JSON value, on which the
subsequent `parsed_range.get('min')` raises `AttributeError`, swallowed by
the outer `except Exception: pass` (lines 100-101). -/
inductive JsonVal where
  | obj (minv maxv : Option Rat)
  | nonObj
deriving DecidableEq

/-- A runtime value bound to the `price_range` parameter (lines 82-101):
a dict (only its `min`/`max` entries are read; `none` = absent or `None`),
a string carried here by the result of `json.loads` on it (`none` =
`json.JSONDecodeError`, which line 98 swallows), or any value that is
neither a dict nor a string (both `isinstance` tests fail and the block
falls through).  The string is represented by its parse result because
that is the only way the source observes it. -/
inductive PriceRangeVal where
  | dict (minv maxv : Option Rat)
  | str (parsed : Option JsonVal)
  | other
deriving DecidableEq

/-- Models the `price_range` resolution block, lines 82-101: when
`price_range` is a dict, or a string that parses to a JSON object, each of
its `min`/`max` values that is individually non-null overwrites the local
`min_price`/`max_price`; every other case leaves both unchanged.  The
Python guard `if price_range:` (truthiness) is omitted because every falsy
value — `None`, the empty dict, the empty string (whose parse fails
anyway), falsy non-dict non-string values — resolves to "no change" in
both readings, so the guard is extensionally redundant. -/
def resolveRange (price_range : Option PriceRangeVal) (min_price max_price : Option Rat) :
    Option Rat × Option Rat :=
  match price_range with
  | some (PriceRangeVal.dict mn mx) => (mn.or min_price, mx.or max_price)
  | some (PriceRangeVal.str (some (JsonVal.obj mn mx))) => (mn.or min_price, mx.or max_price)
  | _ => (min_price, max_price)

/-- Models the category filter, lines 77-79.  The Python guard
`if category:` is false both for `None` and for the empty string. -/
def categoryStage (category : Option String) (l : List Product) : List Product :=
  match category with
  | some c => if c = "" then l else l.filter (fun p => decide (pyLower p.categoryD = pyLower c))
  | none => l

/-- Models the `max_price` filter, lines 104-106 (runs on the value left
in the local `max_price` after `price_range` resolution). -/
def maxPriceStage (max_price : Option Rat) (l : List Product) : List Product :=
  match max_price with
  | some x => l.filter (fun p => decide (p.priceD ≤ x))
  | none => l

/-- Models the `min_price` filter, lines 108-110. -/
def minPriceStage (min_price : Option Rat) (l : List Product) : List Product :=
  match min_price with
  | some x => l.filter (fun p => decide (x ≤ p.priceD))
  | none => l

/-- Models the `min_rating` filter, lines 113-115. -/
def minRatingStage (min_rating : Option Rat) (l : List Product) : List Product :=
  match min_rating with
  | some x => l.filter (fun p => decide (x ≤ p.ratingD))
  | none => l

/-- Models the `max_rating` filter, lines 117-119. -/
def maxRatingStage (max_rating : Option Rat) (l : List Product) : List Product :=
  match max_rating with
  | some x => l.filter (fun p => decide (p.ratingD ≤ x))
  | none => l

/-- Models the stock filter, lines 122-124: applied whenever
`in_stock_only is not None`, keeping records whose
`p.get('in_stock', False)` equals it. -/
def stockStage (in_stock_only : Option Bool) (l : List Product) : List Product :=
  match in_stock_only with
  | some b => l.filter (fun p => p.inStockD == b)
  | none => l

/-- Models the per-record keyword test of line 131:
`any(keyword.lower() in product_name for keyword in keywords)` where
`product_name = product.get('name', '').lower()`. -/
def keywordMatch (keywords : List String) (p : Product) : Bool :=
  keywords.any (fun kw => decide (pyLower kw <:+: pyLower p.nameD))

/-- Models the keyword filter, lines 127-133.  The Python guard
`if keywords:` is false both for `None` and for the empty list. -/
def keywordStage (keywords : Option (List String)) (l : List Product) : List Product :=
  match keywords with
  | some ks => if ks = [] then l else l.filter (keywordMatch ks)
  | none => l

/-- Comparison used for `sort_by = "price_asc"` (line 138). -/
def priceLe (p q : Product) : Bool := decide (p.priceD ≤ q.priceD)

/-- Comparison used for `sort_by = "price_desc"` (line 140, stable
descending = stable sort by the flipped non-strict comparison). -/
def priceGe (p q : Product) : Bool := decide (q.priceD ≤ p.priceD)

/-- Comparison used for `sort_by = "rating_asc"` (line 142). -/
def ratingLe (p q : Product) : Bool := decide (p.ratingD ≤ q.ratingD)

/-- Comparison used for `sort_by = "rating_desc"` (line 144). -/
def ratingGe (p q : Product) : Bool := decide (q.ratingD ≤ p.ratingD)

/-- Comparison used for `sort_by = "name_asc"` (line 146): lower-cased
name, lexicographic by code point as in Python. -/
def nameLe (p q : Product) : Bool := decide (pyLower p.nameD ≤ pyLower q.nameD)

/-- Comparison used for `sort_by = "name_desc"` (line 148). -/
def nameGe (p q : Product) : Bool := decide (pyLower q.nameD ≤ pyLower p.nameD)

/-- Models the sorting block, lines 136-148: an `if/elif` chain on the six
enumerated mode strings; any other value (the falsy empty string included)
matches no branch and leaves the working list untouched. -/
def sortStage (sort_by : Option String) (l : List Product) : List Product :=
  match sort_by with
  | some s =>
      if s = "price_asc" then l.mergeSort priceLe
      else if s = "price_desc" then l.mergeSort priceGe
      else if s = "rating_asc" then l.mergeSort ratingLe
      else if s = "rating_desc" then l.mergeSort ratingGe
      else if s = "name_asc" then l.mergeSort nameLe
      else if s = "name_desc" then l.mergeSort nameGe
      else l
  | none => l

/-- Models the limit step, lines 151-152: truncate to the first `limit`
records only when `limit is not None and limit > 0`. -/
def limitStage (limit : Option Int) (l : List Product) : List Product :=
  match limit with
  | some n => if 0 < n then l.take n.toNat else l
  | none => l

/-- Working set of `filter_products_by_criteria` after all filter stages
and the `price_range` resolution, before sorting and limiting: the stages
of lines 74-133 composed in source order (category; `price_range`
resolution; `max_price`; `min_price`; `min_rating`; `max_rating`; stock;
keywords). -/
def filterPhase (products : List Product) (category : Option String)
    (max_price min_price : Option Rat) (price_range : Option PriceRangeVal)
    (min_rating max_rating : Option Rat) (in_stock_only : Option Bool)
    (keywords : Option (List String)) : List Product :=
  keywordStage keywords
    (stockStage in_stock_only
      (maxRatingStage max_rating
        (minRatingStage min_rating
          (minPriceStage (resolveRange price_range min_price max_price).1
            (maxPriceStage (resolveRange price_range min_price max_price).2
              (categoryStage category products))))))

/-- Models `filter_products_by_criteria` (lines 67-154): the filter
stages in source order, then sorting, then the limit. -/
def filter_products_by_criteria (products : List Product) (category : Option String)
    (max_price min_price : Option Rat) (price_range : Option PriceRangeVal)
    (min_rating max_rating : Option Rat) (in_stock_only : Option Bool)
    (keywords : Option (List String)) (sort_by : Option String)
    (limit : Option Int) : List Product :=
  limitStage limit
    (sortStage sort_by
      (filterPhase products category max_price min_price price_range
        min_rating max_rating in_stock_only keywords))

/-- Predicate form of `categoryStage`: the per-record test it applies, or
the constant `true` when the stage is a no-op. -/
def categoryPredO (category : Option String) (p : Product) : Bool :=
  match category with
  | some c => if c = "" then true else decide (pyLower p.categoryD = pyLower c)
  | none => true

/-- Predicate form of `maxPriceStage`. -/
def maxPricePredO (max_price : Option Rat) (p : Product) : Bool :=
  match max_price with
  | some x => decide (p.priceD ≤ x)
  | none => true

/-- Predicate form of `minPriceStage`. -/
def minPricePredO (min_price : Option Rat) (p : Product) : Bool :=
  match min_price with
  | some x => decide (x ≤ p.priceD)
  | none => true

/-- Predicate form of `minRatingStage`. -/
def minRatingPredO (min_rating : Option Rat) (p : Product) : Bool :=
  match min_rating with
  | some x => decide (x ≤ p.ratingD)
  | none => true

/-- Predicate form of `maxRatingStage`. -/
def maxRatingPredO (max_rating : Option Rat) (p : Product) : Bool :=
  match max_rating with
  | some x => decide (p.ratingD ≤ x)
  | none => true

/-- Predicate form of `stockStage`. -/
def stockPredO (in_stock_only : Option Bool) (p : Product) : Bool :=
  match in_stock_only with
  | some b => p.inStockD == b
  | none => true

/-- Predicate form of `keywordStage`. -/
def keywordPredO (keywords : Option (List String)) (p : Product) : Bool :=
  match keywords with
  | some ks => if ks = [] then true else keywordMatch ks p
  | none => true

/-- Malformed `price_range` values in the sense of the spec: a string that
is not parseable JSON, a string parsing to a non-object, or any value that
is neither a dict nor a string. -/
def malformedPR (v : PriceRangeVal) : Prop :=
  match v with
  | PriceRangeVal.dict _ _ => False
  | PriceRangeVal.str (some (JsonVal.obj _ _)) => False
  | PriceRangeVal.str (some JsonVal.nonObj) => True
  | PriceRangeVal.str none => True
  | PriceRangeVal.other => True

section StageLemmas

open List

theorem categoryStage_eq_filter (c : Option String) (l : List Product) :
    categoryStage c l = l.filter (categoryPredO c) := by
  cases c with
  | none => exact (List.filter_true l).symm
  | some s =>
      by_cases h : s = ""
      · subst h
        exact (List.filter_true l).symm
      · simp only [categoryStage, if_neg h]
        exact List.filter_congr (fun p _ => by simp [categoryPredO, h])

theorem maxPriceStage_eq_filter (o : Option Rat) (l : List Product) :
    maxPriceStage o l = l.filter (maxPricePredO o) := by
  cases o with
  | none => exact (List.filter_true l).symm
  | some x => rfl

theorem minPriceStage_eq_filter (o : Option Rat) (l : List Product) :
    minPriceStage o l = l.filter (minPricePredO o) := by
  cases o with
  | none => exact (List.filter_true l).symm
  | some x => rfl

theorem minRatingStage_eq_filter (o : Option Rat) (l : List Product) :
    minRatingStage o l = l.filter (minRatingPredO o) := by
  cases o with
  | none => exact (List.filter_true l).symm
  | some x => rfl

theorem maxRatingStage_eq_filter (o : Option Rat) (l : List Product) :
    maxRatingStage o l = l.filter (maxRatingPredO o) := by
  cases o with
  | none => exact (List.filter_true l).symm
  | some x => rfl

theorem stockStage_eq_filter (o : Option Bool) (l : List Product) :
    stockStage o l = l.filter (stockPredO o) := by
  cases o with
  | none => exact (List.filter_true l).symm
  | some b => rfl

theorem keywordStage_eq_filter (o : Option (List String)) (l : List Product) :
    keywordStage o l = l.filter (keywordPredO o) := by
  cases o with
  | none => exact (List.filter_true l).symm
  | some ks =>
      by_cases h : ks = []
      · subst h
        exact (List.filter_true l).symm
      · simp only [keywordStage, if_neg h]
        exact List.filter_congr (fun p _ => by simp [keywordPredO, h])

theorem mem_sortStage_iff {sb : Option String} {l : List Product} {p : Product} :
    p ∈ sortStage sb l ↔ p ∈ l := by
  cases sb with
  | none => exact Iff.rfl
  | some s =>
      simp only [sortStage]
      split_ifs <;> first
        | exact Iff.rfl
        | exact List.mem_mergeSort

theorem mem_of_mem_limitStage {lim : Option Int} {l : List Product} {p : Product}
    (h : p ∈ limitStage lim l) : p ∈ l := by
  cases lim with
  | none => exact h
  | some n =>
      simp only [limitStage] at h
      split at h
      · exact List.mem_of_mem_take h
      · exact h

theorem mem_filterPhase_iff {products : List Product} {category : Option String}
    {max_price min_price : Option Rat} {price_range : Option PriceRangeVal}
    {min_rating max_rating : Option Rat} {in_stock_only : Option Bool}
    {keywords : Option (List String)} {p : Product} :
    p ∈ filterPhase products category max_price min_price price_range
          min_rating max_rating in_stock_only keywords
      ↔ p ∈ products ∧ categoryPredO category p = true
          ∧ maxPricePredO (resolveRange price_range min_price max_price).2 p = true
          ∧ minPricePredO (resolveRange price_range min_price max_price).1 p = true
          ∧ minRatingPredO min_rating p = true
          ∧ maxRatingPredO max_rating p = true
          ∧ stockPredO in_stock_only p = true
          ∧ keywordPredO keywords p = true := by
  simp only [filterPhase, categoryStage_eq_filter, maxPriceStage_eq_filter,
    minPriceStage_eq_filter, minRatingStage_eq_filter, maxRatingStage_eq_filter,
    stockStage_eq_filter, keywordStage_eq_filter, List.mem_filter]
  tauto

theorem mem_filterPhase_of_mem_pipeline {products : List Product} {category : Option String}
    {max_price min_price : Option Rat} {price_range : Option PriceRangeVal}
    {min_rating max_rating : Option Rat} {in_stock_only : Option Bool}
    {keywords : Option (List String)} {sort_by : Option String} {limit : Option Int}
    {p : Product}
    (h : p ∈ filter_products_by_criteria products category max_price min_price
          price_range min_rating max_rating in_stock_only keywords sort_by limit) :
    p ∈ filterPhase products category max_price min_price price_range
          min_rating max_rating in_stock_only keywords :=
  mem_sortStage_iff.mp (mem_of_mem_limitStage h)

end StageLemmas

section SortHelpers

open List

theorem sortStage_none (l : List Product) : sortStage none l = l := rfl

theorem sortStage_price_asc (l : List Product) :
    sortStage (some "price_asc") l = l.mergeSort priceLe := rfl

theorem sortStage_price_desc (l : List Product) :
    sortStage (some "price_desc") l = l.mergeSort priceGe := rfl

theorem sortStage_rating_asc (l : List Product) :
    sortStage (some "rating_asc") l = l.mergeSort ratingLe := rfl

theorem sortStage_rating_desc (l : List Product) :
    sortStage (some "rating_desc") l = l.mergeSort ratingGe := rfl

theorem sortStage_name_asc (l : List Product) :
    sortStage (some "name_asc") l = l.mergeSort nameLe := rfl

theorem sortStage_name_desc (l : List Product) :
    sortStage (some "name_desc") l = l.mergeSort nameGe := rfl

/-- Stability of `List.mergeSort`, phrased through filters: for any
predicate `q` whose satisfying elements are pairwise `le`-comparable in
both directions (e.g. "the sort key equals `k`"), sorting does not change
the subsequence of elements satisfying `q`. -/
theorem filter_mergeSort_eq {α : Type} (le : α → α → Bool)
    (htr : ∀ a b c : α, le a b → le b c → le a c)
    (hto : ∀ a b : α, le a b || le b a)
    (q : α → Bool) (hq : ∀ a b : α, q a = true → q b = true → le a b = true)
    (l : List α) : (l.mergeSort le).filter q = l.filter q := by
  have hsub : l.filter q <+ l := List.filter_sublist l
  have hpw : (l.filter q).Pairwise (fun a b => le a b = true) := by
    refine List.pairwise_of_forall_mem_list ?_
    intro a ha b hb
    exact hq a b (List.of_mem_filter ha) (List.of_mem_filter hb)
  have h1 : l.filter q <+ l.mergeSort le := List.sublist_mergeSort htr hto hpw hsub
  have h2 : l.filter q <+ (l.mergeSort le).filter q := by
    simpa [List.filter_filter, Bool.and_self] using h1.filter q
  have hperm : (l.mergeSort le).filter q ~ l.filter q := (List.mergeSort_perm l le).filter q
  exact (h2.eq_of_length hperm.length_eq.symm).symm

theorem keyLe_trans {α β : Type} [LinearOrder β] (key : α → β) :
    ∀ a b c : α, decide (key a ≤ key b) → decide (key b ≤ key c) → decide (key a ≤ key c) := by
  intro a b c h1 h2
  simp only [decide_eq_true_eq] at *
  exact le_trans h1 h2

theorem keyLe_total {α β : Type} [LinearOrder β] (key : α → β) :
    ∀ a b : α, decide (key a ≤ key b) || decide (key b ≤ key a) := by
  intro a b
  simpa using le_total (key a) (key b)

theorem keyGe_trans {α β : Type} [LinearOrder β] (key : α → β) :
    ∀ a b c : α, decide (key b ≤ key a) → decide (key c ≤ key b) → decide (key c ≤ key a) := by
  intro a b c h1 h2
  simp only [decide_eq_true_eq] at *
  exact le_trans h2 h1

theorem keyGe_total {α β : Type} [LinearOrder β] (key : α → β) :
    ∀ a b : α, decide (key b ≤ key a) || decide (key a ≤ key b) := by
  intro a b
  simpa using le_total (key b) (key a)

theorem filter_mergeSort_key_asc {α β : Type} [LinearOrder β] [DecidableEq β]
    (key : α → β) (l : List α) (k : β) :
    ((l.mergeSort fun p q => decide (key p ≤ key q)).filter fun p => decide (key p = k))
      = l.filter fun p => decide (key p = k) :=
  filter_mergeSort_eq _ (keyLe_trans key) (keyLe_total key) _
    (fun a b h1 h2 => by
      simp only [decide_eq_true_eq] at h1 h2
      simp [h1, h2]) l

theorem filter_mergeSort_key_desc {α β : Type} [LinearOrder β] [DecidableEq β]
    (key : α → β) (l : List α) (k : β) :
    ((l.mergeSort fun p q => decide (key q ≤ key p)).filter fun p => decide (key p = k))
      = l.filter fun p => decide (key p = k) :=
  filter_mergeSort_eq _ (keyGe_trans key) (keyGe_total key) _
    (fun a b h1 h2 => by
      simp only [decide_eq_true_eq] at h1 h2
      simp [h1, h2]) l

theorem pairwise_mergeSort_key_asc {α β : Type} [LinearOrder β]
    (key : α → β) (l : List α) :
    (l.mergeSort fun p q => decide (key p ≤ key q)).Pairwise (fun p q => key p ≤ key q) :=
  (List.sorted_mergeSort (keyLe_trans key) (keyLe_total key) l).imp
    (fun h => of_decide_eq_true h)

theorem pairwise_mergeSort_key_desc {α β : Type} [LinearOrder β]
    (key : α → β) (l : List α) :
    (l.mergeSort fun p q => decide (key q ≤ key p)).Pairwise (fun p q => key q ≤ key p) :=
  (List.sorted_mergeSort (keyGe_trans key) (keyGe_total key) l).imp
    (fun h => of_decide_eq_true h)

end SortHelpers

/-- C1: with every optional criteria field absent, the pipeline returns
the input list unchanged in content and order. -/
theorem identity_when_no_criteria (products : List Product) :
    filter_products_by_criteria products none none none none none none none none none none
      = products := rfl

/-- C2: a well-formed `price_range` (a dict, or a string that JSON-parses
to an object) overrides the separately supplied bounds field-by-field:
each of its individually non-null `min`/`max` values replaces
`min_price`/`max_price`, while a field left null leaves the corresponding
separate bound in force (conjuncts 1 and 2, with `Option.or` expressing
exactly that resolution); in particular `price_range = {min: 50, max: 200}`
together with `min_price = 10` behaves as `min_price = 50, max_price = 200`
(conjunct 3) and every record it returns has `50 ≤ price ≤ 200`, an
effective floor of 50 rather than 10 (conjunct 4). -/
theorem price_range_overrides :
    (∀ (products : List Product) (category : Option String)
       (mx mn mnr mxr mr xr : Option Rat) (iso : Option Bool)
       (kw : Option (List String)) (sb : Option String) (lim : Option Int),
       filter_products_by_criteria products category mx mn
           (some (PriceRangeVal.dict mnr mxr)) mr xr iso kw sb lim
         = filter_products_by_criteria products category (mxr.or mx) (mnr.or mn)
             none mr xr iso kw sb lim)
    ∧ (∀ (products : List Product) (category : Option String)
       (mx mn mnr mxr mr xr : Option Rat) (iso : Option Bool)
       (kw : Option (List String)) (sb : Option String) (lim : Option Int),
       filter_products_by_criteria products category mx mn
           (some (PriceRangeVal.str (some (JsonVal.obj mnr mxr)))) mr xr iso kw sb lim
         = filter_products_by_criteria products category (mxr.or mx) (mnr.or mn)
             none mr xr iso kw sb lim)
    ∧ (∀ (products : List Product) (category : Option String)
       (mr xr : Option Rat) (iso : Option Bool)
       (kw : Option (List String)) (sb : Option String) (lim : Option Int),
       filter_products_by_criteria products category none (some 10)
           (some (PriceRangeVal.dict (some 50) (some 200))) mr xr iso kw sb lim
         = filter_products_by_criteria products category (some 200) (some 50)
             none mr xr iso kw sb lim)
    ∧ (∀ (products : List Product) (category : Option String)
       (mr xr : Option Rat) (iso : Option Bool)
       (kw : Option (List String)) (sb : Option String) (lim : Option Int)
       (p : Product),
       p ∈ filter_products_by_criteria products category none (some 10)
             (some (PriceRangeVal.dict (some 50) (some 200))) mr xr iso kw sb lim →
         50 ≤ p.priceD ∧ p.priceD ≤ 200) := by
  refine ⟨fun _ _ _ _ _ _ _ _ _ _ _ _ => rfl, fun _ _ _ _ _ _ _ _ _ _ _ _ => rfl,
    fun _ _ _ _ _ _ _ _ => rfl, ?_⟩
  intro products category mr xr iso kw sb lim p h
  have h2 := mem_filterPhase_iff.mp (mem_filterPhase_of_mem_pipeline h)
  have hmax : maxPricePredO (some 200) p = true := h2.2.2.1
  have hmin : minPricePredO (some 50) p = true := h2.2.2.2.1
  exact ⟨of_decide_eq_true hmin, of_decide_eq_true hmax⟩

/-- Witness for C2, conjunct 4 applied to a one-record list whose single
record (price 100) survives the filter. -/
theorem price_range_overrides_witness :
    50 ≤ Product.priceD ⟨some "A", none, some 100, none, none⟩
      ∧ Product.priceD ⟨some "A", none, some 100, none, none⟩ ≤ 200 :=
  price_range_overrides.2.2.2 [⟨some "A", none, some 100, none, none⟩]
    none none none none none none none ⟨some "A", none, some 100, none, none⟩
    (by decide)

/-- C8: every malformed `price_range` value — a string that fails JSON
parsing, a string parsing to a non-object, or any value that is neither a
dict nor a string — is treated exactly as an absent `price_range`: the
call returns normally (the model is total, mirroring the source's
swallowed exceptions at lines 98-101) and all other criteria fields are
still applied. -/
theorem malformed_price_range_ignored :
    ∀ v : PriceRangeVal, malformedPR v →
    ∀ (products : List Product) (category : Option String)
      (mx mn mr xr : Option Rat) (iso : Option Bool)
      (kw : Option (List String)) (sb : Option String) (lim : Option Int),
      filter_products_by_criteria products category mx mn (some v) mr xr iso kw sb lim
        = filter_products_by_criteria products category mx mn none mr xr iso kw sb lim := by
  intro v hv
  cases v with
  | dict mnv mxv => exact hv.elim
  | other => intro _ _ _ _ _ _ _ _ _ _; rfl
  | str parsed =>
      cases parsed with
      | none => intro _ _ _ _ _ _ _ _ _ _; rfl
      | some j =>
          cases j with
          | obj mnv mxv => exact hv.elim
          | nonObj => intro _ _ _ _ _ _ _ _ _ _; rfl

/-- Witness for C8: an unparseable `price_range` string together with a
live `max_price` criterion gives the same result as no `price_range`. -/
theorem malformed_price_range_ignored_witness :
    filter_products_by_criteria
        [⟨some "A", none, some 5, none, none⟩, ⟨some "B", none, some 50, none, none⟩]
        none (some 10) none (some (PriceRangeVal.str none)) none none none none none none
      = filter_products_by_criteria
        [⟨some "A", none, some 5, none, none⟩, ⟨some "B", none, some 50, none, none⟩]
        none (some 10) none none none none none none none none :=
  malformed_price_range_ignored (PriceRangeVal.str none) trivial
    [⟨some "A", none, some 5, none, none⟩, ⟨some "B", none, some 50, none, none⟩]
    none (some 10) none none none none none none none

/-- C10: a `sort_by` value outside the six enumerated mode strings leaves
the sorting block without effect: the sort stage is the identity, and the
whole pipeline behaves exactly as if `sort_by` were absent. -/
theorem unknown_sort_by_ignored :
    ∀ s : String,
      s ∉ (["price_asc", "price_desc", "rating_asc", "rating_desc",
            "name_asc", "name_desc"] : List String) →
      (∀ l : List Product, sortStage (some s) l = l)
      ∧ ∀ (products : List Product) (category : Option String)
          (mx mn : Option Rat) (pr : Option PriceRangeVal) (mr xr : Option Rat)
          (iso : Option Bool) (kw : Option (List String)) (lim : Option Int),
          filter_products_by_criteria products category mx mn pr mr xr iso kw (some s) lim
            = filter_products_by_criteria products category mx mn pr mr xr iso kw none lim := by
  intro s hs
  simp only [List.mem_cons, List.not_mem_nil, or_false, not_or] at hs
  obtain ⟨h1, h2, h3, h4, h5, h6⟩ := hs
  have hid : ∀ l : List Product, sortStage (some s) l = l := by
    intro l
    simp only [sortStage, if_neg h1, if_neg h2, if_neg h3, if_neg h4, if_neg h5, if_neg h6]
  refine ⟨hid, ?_⟩
  intro products category mx mn pr mr xr iso kw lim
  simp only [filter_products_by_criteria, hid, sortStage_none]

/-- Witness for C10: the unrecognized mode string "newest" with a limit
in force behaves exactly as an absent `sort_by`. -/
theorem unknown_sort_by_ignored_witness :
    filter_products_by_criteria
        [⟨some "B", none, some 50, none, none⟩, ⟨some "A", none, some 5, none, none⟩]
        none none none none none none none none (some "newest") (some 1)
      = filter_products_by_criteria
        [⟨some "B", none, some 50, none, none⟩, ⟨some "A", none, some 5, none, none⟩]
        none none none none none none none none none (some 1) :=
  (unknown_sort_by_ignored "newest" (by decide)).2
    [⟨some "B", none, some 50, none, none⟩, ⟨some "A", none, some 5, none, none⟩]
    none none none none none none none none (some 1)

/-- Counterexample to C9 as stated: with the category criterion present
but equal to the empty string, the stage keeps a record whose category
("Books") does not case-insensitively equal the requested value "" — the
source's truthiness guard `if category:` skips the filter for the empty
string, so the output is not "exactly the matching records". -/
theorem category_empty_string_counterexample :
    categoryStage (some "") [⟨none, some "Books", none, none, none⟩]
        = [⟨none, some "Books", none, none, none⟩]
      ∧ ¬ (pyLower (Product.categoryD ⟨none, some "Books", none, none, none⟩)
            = pyLower "") := by
  exact ⟨rfl, by decide⟩

/-- C9 amended: for every criteria whose category is present and
NON-EMPTY, the stage keeps exactly the records whose category, compared
case-insensitively, equals the requested value (in input order); when
category is absent — or the empty string, which Python truthiness treats
like absence — the stage is a no-op and all records pass through. -/
theorem category_filter_amended :
    (∀ c : String, c ≠ "" → ∀ l : List Product,
        categoryStage (some c) l
          = l.filter (fun p => decide (pyLower p.categoryD = pyLower c)))
    ∧ (∀ l : List Product, categoryStage none l = l)
    ∧ (∀ l : List Product, categoryStage (some "") l = l) := by
  refine ⟨?_, fun _ => rfl, fun _ => rfl⟩
  intro c hc l
  simp only [categoryStage, if_neg hc]

/-- Witness for C9 (amended): the non-empty category "Books" filters a
two-record list down to the case-insensitive matches. -/
theorem category_filter_amended_witness :
    categoryStage (some "Books")
        [⟨none, some "books", none, none, none⟩, ⟨none, some "Toys", none, none, none⟩]
      = [⟨none, some "books", none, none, none⟩,
         ⟨none, some "Toys", none, none, none⟩].filter
          (fun p => decide (pyLower p.categoryD = pyLower "Books")) :=
  category_filter_amended.1 "Books" (by decide)
    [⟨none, some "books", none, none, none⟩, ⟨none, some "Toys", none, none, none⟩]

/-- Counterexample to C3 as stated: with `max_price = 10` but
`price_range = {max: 1000}` also supplied, the override of C2 raises the
effective ceiling to 1000, and a record of price 500 is returned even
though it violates `price <= 10`. -/
theorem price_bound_counterexample :
    filter_products_by_criteria [⟨some "A", none, some 500, none, none⟩]
        none (some 10) none (some (PriceRangeVal.dict none (some 1000)))
        none none none none none none
      = [⟨some "A", none, some 500, none, none⟩]
      ∧ ¬ (Product.priceD ⟨some "A", none, some 500, none, none⟩ ≤ (10 : Rat)) := by
  exact ⟨rfl, by decide⟩

/-- C3 amended: provided `price_range` is absent (otherwise its values
override the price bounds, per C2), every returned record satisfies
`price ≤ max_price` when `max_price` is set and `price ≥ min_price` when
`min_price` is set (conjuncts 1-2); the rating bounds hold without any
proviso, since nothing overrides them (conjuncts 3-4); and a record
missing the price (resp. rating) field is compared as if its value were 0,
so it passes a bound stage exactly when 0 satisfies the bound
(conjuncts 5-8). -/
theorem bound_filters_amended :
    (∀ (products : List Product) (category : Option String) (x : Rat)
       (mn mr xr : Option Rat) (iso : Option Bool) (kw : Option (List String))
       (sb : Option String) (lim : Option Int) (p : Product),
       p ∈ filter_products_by_criteria products category (some x) mn none mr xr iso kw sb lim →
         p.priceD ≤ x)
    ∧ (∀ (products : List Product) (category : Option String) (mx : Option Rat)
       (x : Rat) (mr xr : Option Rat) (iso : Option Bool) (kw : Option (List String))
       (sb : Option String) (lim : Option Int) (p : Product),
       p ∈ filter_products_by_criteria products category mx (some x) none mr xr iso kw sb lim →
         x ≤ p.priceD)
    ∧ (∀ (products : List Product) (category : Option String) (mx mn : Option Rat)
       (pr : Option PriceRangeVal) (x : Rat) (xr : Option Rat) (iso : Option Bool)
       (kw : Option (List String)) (sb : Option String) (lim : Option Int) (p : Product),
       p ∈ filter_products_by_criteria products category mx mn pr (some x) xr iso kw sb lim →
         x ≤ p.ratingD)
    ∧ (∀ (products : List Product) (category : Option String) (mx mn : Option Rat)
       (pr : Option PriceRangeVal) (mr : Option Rat) (x : Rat) (iso : Option Bool)
       (kw : Option (List String)) (sb : Option String) (lim : Option Int) (p : Product),
       p ∈ filter_products_by_criteria products category mx mn pr mr (some x) iso kw sb lim →
         p.ratingD ≤ x)
    ∧ (∀ (x : Rat) (l : List Product) (p : Product), p.price = none → p ∈ l →
         (p ∈ maxPriceStage (some x) l ↔ (0 : Rat) ≤ x))
    ∧ (∀ (x : Rat) (l : List Product) (p : Product), p.price = none → p ∈ l →
         (p ∈ minPriceStage (some x) l ↔ x ≤ 0))
    ∧ (∀ (x : Rat) (l : List Product) (p : Product), p.rating = none → p ∈ l →
         (p ∈ minRatingStage (some x) l ↔ x ≤ 0))
    ∧ (∀ (x : Rat) (l : List Product) (p : Product), p.rating = none → p ∈ l →
         (p ∈ maxRatingStage (some x) l ↔ (0 : Rat) ≤ x)) := by
  refine ⟨?_, ?_, ?_, ?_, ?_, ?_, ?_, ?_⟩
  · intro products category x mn mr xr iso kw sb lim p h
    have h2 := mem_filterPhase_iff.mp (mem_filterPhase_of_mem_pipeline h)
    exact of_decide_eq_true h2.2.2.1
  · intro products category mx x mr xr iso kw sb lim p h
    have h2 := mem_filterPhase_iff.mp (mem_filterPhase_of_mem_pipeline h)
    exact of_decide_eq_true h2.2.2.2.1
  · intro products category mx mn pr x xr iso kw sb lim p h
    have h2 := mem_filterPhase_iff.mp (mem_filterPhase_of_mem_pipeline h)
    exact of_decide_eq_true h2.2.2.2.2.1
  · intro products category mx mn pr mr x iso kw sb lim p h
    have h2 := mem_filterPhase_iff.mp (mem_filterPhase_of_mem_pipeline h)
    exact of_decide_eq_true h2.2.2.2.2.2.1
  · intro x l p hnone hl
    simp [maxPriceStage, List.mem_filter, hl, Product.priceD, hnone]
  · intro x l p hnone hl
    simp [minPriceStage, List.mem_filter, hl, Product.priceD, hnone]
  · intro x l p hnone hl
    simp [minRatingStage, List.mem_filter, hl, Product.ratingD, hnone]
  · intro x l p hnone hl
    simp [maxRatingStage, List.mem_filter, hl, Product.ratingD, hnone]

/-- Witness for C3 (amended): a record of price 5 returned under
`max_price = 10` indeed satisfies `price ≤ 10`. -/
theorem bound_filters_amended_witness :
    Product.priceD ⟨some "A", none, some 5, none, none⟩ ≤ (10 : Rat) :=
  bound_filters_amended.1 [⟨some "A", none, some 5, none, none⟩]
    none 10 none none none none none none none ⟨some "A", none, some 5, none, none⟩
    (by decide)

/-- C4: the stock filter is tri-state.  With `in_stock_only = true` every
returned record has `in_stock = true` (conjunct 1); with
`in_stock_only = false` no returned record has `in_stock = true`
(conjunct 2), and a record missing the `in_stock` field counts as out of
stock, so it passes the `false` filter (conjunct 4, concrete); with
`in_stock_only` absent no stock filtering occurs and records of both
stock states appear in the output together (conjunct 3, concrete). -/
theorem stock_filter_tristate :
    (∀ (products : List Product) (category : Option String) (mx mn : Option Rat)
       (pr : Option PriceRangeVal) (mr xr : Option Rat) (kw : Option (List String))
       (sb : Option String) (lim : Option Int) (p : Product),
       p ∈ filter_products_by_criteria products category mx mn pr mr xr (some true) kw sb lim →
         p.in_stock = some true)
    ∧ (∀ (products : List Product) (category : Option String) (mx mn : Option Rat)
       (pr : Option PriceRangeVal) (mr xr : Option Rat) (kw : Option (List String))
       (sb : Option String) (lim : Option Int) (p : Product),
       p ∈ filter_products_by_criteria products category mx mn pr mr xr (some false) kw sb lim →
         p.in_stock ≠ some true)
    ∧ filter_products_by_criteria
        [⟨some "A", none, none, none, some true⟩, ⟨some "B", none, none, none, some false⟩]
        none none none none none none none none none none
      = [⟨some "A", none, none, none, some true⟩, ⟨some "B", none, none, none, some false⟩]
    ∧ filter_products_by_criteria [⟨some "M", none, none, none, none⟩]
        none none none none none none (some false) none none none
      = [⟨some "M", none, none, none, none⟩] := by
  refine ⟨?_, ?_, rfl, rfl⟩
  · intro products category mx mn pr mr xr kw sb lim p h
    have h2 := mem_filterPhase_iff.mp (mem_filterPhase_of_mem_pipeline h)
    have h3 : p.inStockD = true := by
      simpa [stockPredO] using h2.2.2.2.2.2.2.1
    cases hp : p.in_stock with
    | none => rw [Product.inStockD, hp] at h3; exact absurd h3 (by simp)
    | some b => rw [Product.inStockD, hp] at h3; simp at h3; rw [h3]
  · intro products category mx mn pr mr xr kw sb lim p h
    have h2 := mem_filterPhase_iff.mp (mem_filterPhase_of_mem_pipeline h)
    have h3 : p.inStockD = false := by
      simpa [stockPredO] using h2.2.2.2.2.2.2.1
    intro hcontra
    rw [Product.inStockD, hcontra] at h3
    simp at h3

/-- Witness for C4, conjunct 1: the only record returned under
`in_stock_only = true` from a mixed two-record list has
`in_stock = true`. -/
theorem stock_filter_tristate_witness :
    Product.in_stock ⟨some "A", none, none, none, some true⟩ = some true :=
  stock_filter_tristate.1
    [⟨some "A", none, none, none, some true⟩, ⟨some "B", none, none, none, some false⟩]
    none none none none none none none none none ⟨some "A", none, none, none, some true⟩
    (by decide)

/-- C5: with a non-empty keyword list, the keyword stage keeps a record
exactly when at least one keyword is a case-insensitive substring of its
name — a logical OR (conjunct 1); the keywords ["Bluetooth", "Tracker"]
match both a record named "Fitness Tracker Pro" and one named
"Bluetooth Speaker" (conjuncts 2-3); an empty or absent keyword set
filters nothing (conjuncts 4-5). -/
theorem keyword_filter_or_case_insensitive :
    (∀ ks : List String, ks ≠ [] → ∀ (l : List Product) (p : Product),
        (p ∈ keywordStage (some ks) l
          ↔ p ∈ l ∧ ∃ kw ∈ ks, pyLower kw <:+: pyLower p.nameD))
    ∧ keywordMatch ["Bluetooth", "Tracker"]
        ⟨some "Fitness Tracker Pro", none, none, none, none⟩ = true
    ∧ keywordMatch ["Bluetooth", "Tracker"]
        ⟨some "Bluetooth Speaker", none, none, none, none⟩ = true
    ∧ (∀ l : List Product, keywordStage (some []) l = l)
    ∧ (∀ l : List Product, keywordStage none l = l) := by
  refine ⟨?_, by decide, by decide, fun _ => rfl, fun _ => rfl⟩
  intro ks hks l p
  simp only [keywordStage, if_neg hks, List.mem_filter, keywordMatch,
    List.any_eq_true, decide_eq_true_eq]

/-- Witness for C5, conjunct 1: a record named "Fitness Tracker Pro" is
kept by the keyword stage for ["Bluetooth", "Tracker"], and a matching
keyword exists. -/
theorem keyword_filter_or_case_insensitive_witness :
    (⟨some "Fitness Tracker Pro", none, none, none, none⟩ : Product)
        ∈ ([⟨some "Fitness Tracker Pro", none, none, none, none⟩] : List Product)
      ∧ ∃ kw ∈ (["Bluetooth", "Tracker"] : List String),
          pyLower kw <:+:
            pyLower (Product.nameD ⟨some "Fitness Tracker Pro", none, none, none, none⟩) :=
  (keyword_filter_or_case_insensitive.1 ["Bluetooth", "Tracker"] (by decide)
    [⟨some "Fitness Tracker Pro", none, none, none, none⟩]
    ⟨some "Fitness Tracker Pro", none, none, none, none⟩).mp (by decide)

/-- C6: each of the six sort modes produces a permutation of its input
that is sorted on its key and stable — the subsequence of records whose
key equals any fixed value is unchanged, so equal-key records keep their
original relative order (conjuncts 1-6, one per mode); `limit` truncates
after sorting exactly when it is a positive integer (conjunct 7), while a
zero, negative or absent limit returns the full filtered/sorted list
(conjunct 8 and the definition); and on a concrete five-record list,
`sort_by = "price_asc"` with `limit = 3` returns exactly the three
cheapest records, ascending, the price-3 tie broken by original order
(conjunct 9). -/
theorem sorting_stable_and_limit_truncates :
    (∀ (l : List Product) (k : Rat),
        ((sortStage (some "price_asc") l).filter fun p => decide (p.priceD = k))
            = l.filter (fun p => decide (p.priceD = k))
          ∧ (sortStage (some "price_asc") l).Pairwise (fun p q => p.priceD ≤ q.priceD)
          ∧ List.Perm (sortStage (some "price_asc") l) l)
    ∧ (∀ (l : List Product) (k : Rat),
        ((sortStage (some "price_desc") l).filter fun p => decide (p.priceD = k))
            = l.filter (fun p => decide (p.priceD = k))
          ∧ (sortStage (some "price_desc") l).Pairwise (fun p q => q.priceD ≤ p.priceD)
          ∧ List.Perm (sortStage (some "price_desc") l) l)
    ∧ (∀ (l : List Product) (k : Rat),
        ((sortStage (some "rating_asc") l).filter fun p => decide (p.ratingD = k))
            = l.filter (fun p => decide (p.ratingD = k))
          ∧ (sortStage (some "rating_asc") l).Pairwise (fun p q => p.ratingD ≤ q.ratingD)
          ∧ List.Perm (sortStage (some "rating_asc") l) l)
    ∧ (∀ (l : List Product) (k : Rat),
        ((sortStage (some "rating_desc") l).filter fun p => decide (p.ratingD = k))
            = l.filter (fun p => decide (p.ratingD = k))
          ∧ (sortStage (some "rating_desc") l).Pairwise (fun p q => q.ratingD ≤ p.ratingD)
          ∧ List.Perm (sortStage (some "rating_desc") l) l)
    ∧ (∀ (l : List Product) (k : List Char),
        ((sortStage (some "name_asc") l).filter fun p => decide (pyLower p.nameD = k))
            = l.filter (fun p => decide (pyLower p.nameD = k))
          ∧ (sortStage (some "name_asc") l).Pairwise
              (fun p q => pyLower p.nameD ≤ pyLower q.nameD)
          ∧ List.Perm (sortStage (some "name_asc") l) l)
    ∧ (∀ (l : List Product) (k : List Char),
        ((sortStage (some "name_desc") l).filter fun p => decide (pyLower p.nameD = k))
            = l.filter (fun p => decide (pyLower p.nameD = k))
          ∧ (sortStage (some "name_desc") l).Pairwise
              (fun p q => pyLower q.nameD ≤ pyLower p.nameD)
          ∧ List.Perm (sortStage (some "name_desc") l) l)
    ∧ (∀ (products : List Product) (category : Option String) (mx mn : Option Rat)
        (pr : Option PriceRangeVal) (mr xr : Option Rat) (iso : Option Bool)
        (kw : Option (List String)) (sb : Option String) (n : Int), 0 < n →
        filter_products_by_criteria products category mx mn pr mr xr iso kw sb (some n)
          = (filter_products_by_criteria products category mx mn pr mr xr iso kw sb
              none).take n.toNat)
    ∧ (∀ (products : List Product) (category : Option String) (mx mn : Option Rat)
        (pr : Option PriceRangeVal) (mr xr : Option Rat) (iso : Option Bool)
        (kw : Option (List String)) (sb : Option String) (n : Int), n ≤ 0 →
        filter_products_by_criteria products category mx mn pr mr xr iso kw sb (some n)
          = filter_products_by_criteria products category mx mn pr mr xr iso kw sb none)
    ∧ filter_products_by_criteria
        [⟨some "A", none, some 5, none, none⟩, ⟨some "B", none, some 3, none, none⟩,
         ⟨some "C", none, some 3, none, none⟩, ⟨some "D", none, some 10, none, none⟩,
         ⟨some "E", none, some 1, none, none⟩]
        none none none none none none none none (some "price_asc") (some 3)
      = [⟨some "E", none, some 1, none, none⟩, ⟨some "B", none, some 3, none, none⟩,
         ⟨some "C", none, some 3, none, none⟩] := by
  refine ⟨?_, ?_, ?_, ?_, ?_, ?_, ?_, ?_, ?_⟩
  · intro l k
    rw [sortStage_price_asc]
    exact ⟨filter_mergeSort_key_asc Product.priceD l k,
      pairwise_mergeSort_key_asc Product.priceD l, List.mergeSort_perm l priceLe⟩
  · intro l k
    rw [sortStage_price_desc]
    exact ⟨filter_mergeSort_key_desc Product.priceD l k,
      pairwise_mergeSort_key_desc Product.priceD l, List.mergeSort_perm l priceGe⟩
  · intro l k
    rw [sortStage_rating_asc]
    exact ⟨filter_mergeSort_key_asc Product.ratingD l k,
      pairwise_mergeSort_key_asc Product.ratingD l, List.mergeSort_perm l ratingLe⟩
  · intro l k
    rw [sortStage_rating_desc]
    exact ⟨filter_mergeSort_key_desc Product.ratingD l k,
      pairwise_mergeSort_key_desc Product.ratingD l, List.mergeSort_perm l ratingGe⟩
  · intro l k
    rw [sortStage_name_asc]
    exact ⟨filter_mergeSort_key_asc (fun p => pyLower p.nameD) l k,
      pairwise_mergeSort_key_asc (fun p => pyLower p.nameD) l,
      List.mergeSort_perm l nameLe⟩
  · intro l k
    rw [sortStage_name_desc]
    exact ⟨filter_mergeSort_key_desc (fun p => pyLower p.nameD) l k,
      pairwise_mergeSort_key_desc (fun p => pyLower p.nameD) l,
      List.mergeSort_perm l nameGe⟩
  · intro products category mx mn pr mr xr iso kw sb n hn
    simp only [filter_products_by_criteria, limitStage, if_pos hn]
  · intro products category mx mn pr mr xr iso kw sb n hn
    simp only [filter_products_by_criteria, limitStage, if_neg (not_lt.mpr hn)]
  · norm_num [filter_products_by_criteria, filterPhase, categoryStage, resolveRange,
      maxPriceStage, minPriceStage, minRatingStage, maxRatingStage, stockStage,
      keywordStage, sortStage_price_asc, limitStage, List.mergeSort, List.merge,
      priceLe, Product.priceD]
    rfl

/-- Witness for C6, conjunct 7: with a concrete list and `limit = 2`, the
pipeline equals the untruncated pipeline cut to its first two records. -/
theorem sorting_stable_and_limit_truncates_witness :
    filter_products_by_criteria
        [⟨some "A", none, some 5, none, none⟩, ⟨some "B", none, some 3, none, none⟩,
         ⟨some "C", none, some 1, none, none⟩]
        none none none none none none none none (some "price_asc") (some 2)
      = (filter_products_by_criteria
          [⟨some "A", none, some 5, none, none⟩, ⟨some "B", none, some 3, none, none⟩,
           ⟨some "C", none, some 1, none, none⟩]
          none none none none none none none none (some "price_asc") none).take
          (Int.toNat 2) :=
  sorting_stable_and_limit_truncates.2.2.2.2.2.2.1
    [⟨some "A", none, some 5, none, none⟩, ⟨some "B", none, some 3, none, none⟩,
     ⟨some "C", none, some 1, none, none⟩]
    none none none none none none none none (some "price_asc") 2 (by decide)

theorem filter_swap {α : Type} (p q : α → Bool) (l : List α) :
    (l.filter p).filter q = (l.filter q).filter p := by
  simp only [List.filter_filter]
  exact List.filter_congr (fun a _ => Bool.and_comm _ _)

/-- C7: the five filter stages — category, price bounds, rating bounds,
stock, keywords, with `price_range` resolution folded into the price-bound
stage — commute: applying them in any order produces the same list, both
as a set and as a sequence (each stage is an order-preserving filter), as
the implemented order, i.e. the pipeline's pre-sort working set
`filterPhase`.  Only the sort stage is order-sensitive, and in the
implementation it runs after all filtering. -/
theorem filter_stages_commute :
    ∀ (products : List Product) (category : Option String) (mx mn : Option Rat)
      (pr : Option PriceRangeVal) (mr xr : Option Rat) (iso : Option Bool)
      (kw : Option (List String)) (order : List (List Product → List Product)),
      List.Perm order
        [categoryStage category,
         fun l => minPriceStage (resolveRange pr mn mx).1
                    (maxPriceStage (resolveRange pr mn mx).2 l),
         fun l => maxRatingStage xr (minRatingStage mr l),
         stockStage iso,
         keywordStage kw] →
      order.foldl (fun l g => g l) products
        = filterPhase products category mx mn pr mr xr iso kw := by
  intro products category mx mn pr mr xr iso kw order hperm
  have hfilters : ∀ g ∈ [categoryStage category,
      fun l => minPriceStage (resolveRange pr mn mx).1
                 (maxPriceStage (resolveRange pr mn mx).2 l),
      fun l => maxRatingStage xr (minRatingStage mr l),
      stockStage iso,
      keywordStage kw], ∃ q : Product → Bool, g = fun l => l.filter q := by
    intro g hg
    simp only [List.mem_cons, List.not_mem_nil, or_false] at hg
    rcases hg with h | h | h | h | h
    · exact ⟨categoryPredO category, by
        funext l; rw [h, categoryStage_eq_filter]⟩
    · exact ⟨fun p => minPricePredO (resolveRange pr mn mx).1 p
          && maxPricePredO (resolveRange pr mn mx).2 p, by
        funext l
        simp only [h]
        rw [maxPriceStage_eq_filter, minPriceStage_eq_filter, List.filter_filter]⟩
    · exact ⟨fun p => maxRatingPredO xr p && minRatingPredO mr p, by
        funext l
        simp only [h]
        rw [minRatingStage_eq_filter, maxRatingStage_eq_filter, List.filter_filter]⟩
    · exact ⟨stockPredO iso, by
        funext l; rw [h, stockStage_eq_filter]⟩
    · exact ⟨keywordPredO kw, by
        funext l; rw [h, keywordStage_eq_filter]⟩
  have hfold : order.foldl (fun l g => g l) products
      = List.foldl (fun l g => g l) products
          [categoryStage category,
           fun l => minPriceStage (resolveRange pr mn mx).1
                      (maxPriceStage (resolveRange pr mn mx).2 l),
           fun l => maxRatingStage xr (minRatingStage mr l),
           stockStage iso,
           keywordStage kw] := by
    refine hperm.foldl_eq' ?_ products
    intro x hx y hy z
    obtain ⟨qx, hqx⟩ := hfilters x (hperm.mem_iff.mp hx)
    obtain ⟨qy, hqy⟩ := hfilters y (hperm.mem_iff.mp hy)
    simp only [hqx, hqy]
    exact filter_swap qx qy z
  rw [hfold]
  rfl

/-- Witness for C7: with category and max-price criteria live, running the
price-bound stage before the category stage still yields the implemented
pre-sort working set. -/
theorem filter_stages_commute_witness :
    List.foldl (fun l (g : List Product → List Product) => g l)
        [⟨some "A", some "Books", some 5, none, none⟩,
         ⟨some "B", some "Toys", some 500, none, none⟩]
        [fun l => minPriceStage (resolveRange none none (some 100)).1
                    (maxPriceStage (resolveRange none none (some 100)).2 l),
         categoryStage (some "Books"),
         fun l => maxRatingStage none (minRatingStage none l),
         stockStage none,
         keywordStage none]
      = filterPhase
          [⟨some "A", some "Books", some 5, none, none⟩,
           ⟨some "B", some "Toys", some 500, none, none⟩]
          (some "Books") (some 100) none none none none none none :=
  filter_stages_commute
    [⟨some "A", some "Books", some 5, none, none⟩,
     ⟨some "B", some "Toys", some 500, none, none⟩]
    (some "Books") (some 100) none none none none none none
    _ (List.Perm.swap _ _ _)

end ProductSearch
